import Mathlib

/-!
Verification of the DFU/DFUSe flashing core of the pandaFlash repository.

The definitions below are a shallow embedding of the TypeScript class `DfuDevice`
and the surrounding orchestration code (`flashWithRetry`, `writeWithFallback`,
`flash`).  Device I/O is made explicit: every function that in the source awaits
a control transfer is parameterised by the values the device returns (observed
GETSTATE results, streams of GETSTATUS records, per-block terminal statuses),
and where the source loops on live device state the embedding uses an explicit
fuel argument, with `none` standing for a loop that never finished.
-/

/-- DFU status record as decoded by `getStatus` from the 6-byte GETSTATUS
response: byte 0 the status code, bytes 1-3 the little-endian poll timeout,
byte 4 the state. -/
structure DfuStatus where
  status : Nat
  pollTimeout : Nat
  state : Nat
deriving Repr, DecidableEq

/-- DFU state constants from the source's STATE table. -/
def appIDLE : Nat := 0

def appDETACH : Nat := 1

def dfuIDLE : Nat := 2

def dfuDNLOAD_SYNC : Nat := 3

def dfuDNBUSY : Nat := 4

def dfuDNLOAD_IDLE : Nat := 5

def dfuMANIFEST_SYNC : Nat := 6

def dfuMANIFEST : Nat := 7

def dfuMANIFEST_WAIT_RESET : Nat := 8

def dfuUPLOAD_IDLE : Nat := 9

def dfuERROR : Nat := 10

/-- Model of `pollUntil(targetState)`: `sts` is the stream of successive
GETSTATUS results the device produces.  The loop keeps the current status while
its state is neither the target nor dfuERROR, sleeping the device-reported
`pollTimeout` before the next GETSTATUS.  The result is the terminal status
together with the list of sleep durations performed, or `none` when the stream
is exhausted without reaching a terminal state (the source loop would still be
polling). -/
def pollUntil (targetState : Nat) : List DfuStatus → Option (DfuStatus × List Nat)
  | [] => none
  | st :: rest =>
    if st.state ≠ targetState ∧ st.state ≠ dfuERROR then
      match pollUntil targetState rest with
      | none => none
      | some (fin, sleeps) => some (fin, st.pollTimeout :: sleeps)
    else
      some (st, [])

theorem pollUntil_terminal (targetState : Nat) (sts : List DfuStatus)
    (fin : DfuStatus) (sleeps : List Nat)
    (h : pollUntil targetState sts = some (fin, sleeps)) :
    fin.state = targetState ∨ fin.state = dfuERROR := by
  induction sts generalizing fin sleeps with
  | nil => simp [pollUntil] at h
  | cons st rest ih =>
    by_cases hc : st.state ≠ targetState ∧ st.state ≠ dfuERROR
    · rw [pollUntil, if_pos hc] at h
      cases hrec : pollUntil targetState rest with
      | none => rw [hrec] at h; exact absurd h (by simp)
      | some p =>
        rw [hrec] at h
        obtain ⟨f, sl⟩ := p
        simp only [Option.some.injEq, Prod.mk.injEq] at h
        obtain ⟨h1, _⟩ := h
        exact ih f sl hrec |>.imp (h1 ▸ id) (h1 ▸ id)
    · rw [pollUntil, if_neg hc] at h
      simp only [Option.some.injEq, Prod.mk.injEq] at h
      rcases not_and_or.mp hc with h' | h'
      · exact Or.inl (h.1 ▸ not_not.mp h')
      · exact Or.inr (h.1 ▸ not_not.mp h')

theorem pollUntil_sleeps (targetState : Nat) (sts : List DfuStatus)
    (fin : DfuStatus) (sleeps : List Nat)
    (h : pollUntil targetState sts = some (fin, sleeps)) :
    ∃ k, ∃ hk : k < sts.length, fin = sts.get ⟨k, hk⟩ ∧
      sleeps = (sts.take k).map DfuStatus.pollTimeout := by
  induction sts generalizing fin sleeps with
  | nil => simp [pollUntil] at h
  | cons st rest ih =>
    by_cases hc : st.state ≠ targetState ∧ st.state ≠ dfuERROR
    · rw [pollUntil, if_pos hc] at h
      cases hrec : pollUntil targetState rest with
      | none => rw [hrec] at h; exact absurd h (by simp)
      | some p =>
        rw [hrec] at h
        obtain ⟨f, sl⟩ := p
        simp only [Option.some.injEq, Prod.mk.injEq] at h
        obtain ⟨h1, h2⟩ := h
        obtain ⟨k, hk, hget, hsl⟩ := ih f sl hrec
        refine ⟨k + 1, by simpa using Nat.succ_lt_succ hk, ?_, ?_⟩
        · simpa using h1 ▸ hget
        · simp [← h2, hsl]
    · rw [pollUntil, if_neg hc] at h
      simp only [Option.some.injEq, Prod.mk.injEq] at h
      exact ⟨0, by simp, by simp [h.1], by simp [← h.2]⟩

/-- A stream that makes `pollUntil` consume exactly `n` non-terminal statuses:
`n` copies of a non-terminal state followed by the target state. -/
def pollStream (targetState n : Nat) : List DfuStatus :=
  List.replicate n ⟨0, 7, if targetState = 4 then 3 else 4⟩ ++ [⟨0, 0, targetState⟩]

theorem pollUntil_pollStream (targetState n : Nat) :
    pollUntil targetState (pollStream targetState n) =
      some (⟨0, 0, targetState⟩, List.replicate n 7) := by
  induction n with
  | zero => simp [pollStream, pollUntil]
  | succ n ih =>
    have hne : (if targetState = 4 then 3 else 4) ≠ targetState ∧
        (if targetState = 4 then 3 else 4) ≠ dfuERROR := by
      by_cases h4 : targetState = 4 <;> simp [h4, dfuERROR] <;> omega
    simp only [pollStream, List.replicate_succ, List.cons_append, pollUntil]
    rw [if_pos hne]
    rw [pollStream] at ih
    simp only [List.append_eq]
    rw [ih]

/-- C7: `pollUntil(targetState)` repeatedly calls getStatus, sleeping exactly the
device-reported pollTimeout between consecutive calls, and any status it returns
has state equal to the target or to dfuERROR; no retry bound is imposed by
`pollUntil` itself (it can consume arbitrarily many non-terminal statuses). -/
theorem c7_pollUntil_spec :
    (∀ targetState (sts : List DfuStatus) fin sleeps,
      pollUntil targetState sts = some (fin, sleeps) →
        (fin.state = targetState ∨ fin.state = dfuERROR) ∧
        ∃ k, ∃ hk : k < sts.length, fin = sts.get ⟨k, hk⟩ ∧
          sleeps = (sts.take k).map DfuStatus.pollTimeout) ∧
    (∀ targetState n, ∃ sts fin sleeps,
      pollUntil targetState sts = some (fin, sleeps) ∧ sleeps.length = n) :=
  ⟨fun t sts fin sleeps h => ⟨pollUntil_terminal t sts fin sleeps h,
      pollUntil_sleeps t sts fin sleeps h⟩,
   fun t n => ⟨pollStream t n, ⟨0, 0, t⟩, List.replicate n 7,
      pollUntil_pollStream t n, by simp⟩⟩

/-- Witness for C7 at a concrete input: a single non-terminal status followed by
the target state 5 (dfuDNLOAD_IDLE). -/
theorem c7_pollUntil_spec_witness :
    (⟨0, 9, 4⟩ : DfuStatus).state = 5 ∨ (⟨0, 9, 4⟩ : DfuStatus).state = dfuERROR ∨
    (pollUntil 5 [⟨0, 9, 4⟩, ⟨0, 0, 5⟩] = some (⟨0, 0, 5⟩, [9]) ∧
      ((⟨0, 0, 5⟩ : DfuStatus).state = 5 ∨ (⟨0, 0, 5⟩ : DfuStatus).state = dfuERROR)) := by
  refine Or.inr (Or.inr ⟨?_, ?_⟩)
  · simp [pollUntil, dfuERROR]
  · exact (c7_pollUntil_spec.1 5 [⟨0, 9, 4⟩, ⟨0, 0, 5⟩] ⟨0, 0, 5⟩ [9]
      (by simp [pollUntil, dfuERROR])).1

/-- Request-level trace entries for the class control requests the device
wrapper issues. -/
inductive DfuReq
  | detachReq
  | dnload (blockNum : Nat) (payload : List Nat)
  | getStatusReq
  | clrStatus
  | getStateReq
  | abortReq
deriving Repr, DecidableEq

/-- Model of `abortToIdle`: send ABORT, read the state (observed as `s1`); if it
is dfuERROR, send CLRSTATUS and reread (observed as `s2`); throw when the final
observed state is not dfuIDLE.  Returns the request trace and the result. -/
def abortToIdle (s1 s2 : Nat) : List DfuReq × Except String Unit :=
  let (reqs, s) :=
    if s1 = dfuERROR then
      ([DfuReq.abortReq, DfuReq.getStateReq, DfuReq.clrStatus, DfuReq.getStateReq], s2)
    else
      ([DfuReq.abortReq, DfuReq.getStateReq], s1)
  if s ≠ dfuIDLE then (reqs, Except.error ("Failed to return to IDLE, state=" ++ toString s))
  else (reqs, Except.ok ())

/-- The 5-byte DFUSe command buffer: byte 0 the opcode, bytes 1-4 the address as
written by setUint32 with little-endian byte order (the address taken mod 2^32). -/
def cmdBuffer (opcode addr : Nat) : List Nat :=
  [opcode, addr % 256, addr / 256 % 256, addr / 65536 % 256, addr / 16777216 % 256]

/-- Model of `dnloadBlock`: send the payload as DNLOAD at the given block number,
then poll until dfuDNLOAD_IDLE.  `polls` is the stream of GETSTATUS results;
`none` means the poll loop never reached a terminal state. -/
def dnloadBlock (payload : List Nat) (blockNum : Nat) (polls : List DfuStatus) :
    Option (List DfuReq × DfuStatus) :=
  match pollUntil dfuDNLOAD_IDLE polls with
  | none => none
  | some (st, sleeps) =>
      some (DfuReq.dnload blockNum payload ::
        List.replicate (sleeps.length + 1) DfuReq.getStatusReq, st)

/-- Model of `dfuseSetAddress(addr)`: build the 0x21 command buffer, abortToIdle,
send it as DNLOAD block 0, poll to dfuDNLOAD_IDLE, fail on nonzero status. -/
def dfuseSetAddress (addr s1 s2 : Nat) (polls : List DfuStatus) :
    Option (List DfuReq × Except String Unit) :=
  let b := cmdBuffer 0x21 addr
  match abortToIdle s1 s2 with
  | (aReqs, Except.error e) => some (aReqs, Except.error e)
  | (aReqs, Except.ok ()) =>
    match dnloadBlock b 0 polls with
    | none => none
    | some (dReqs, st) =>
        some (aReqs ++ dReqs,
          if st.status ≠ 0 then
            Except.error ("DFUSe SETADDR failed: status=" ++ toString st.status ++
              ", state=" ++ toString st.state)
          else Except.ok ())

/-- Model of `dfuseErase(addr)`: identical to `dfuseSetAddress` with opcode 0x41. -/
def dfuseErase (addr s1 s2 : Nat) (polls : List DfuStatus) :
    Option (List DfuReq × Except String Unit) :=
  let b := cmdBuffer 0x41 addr
  match abortToIdle s1 s2 with
  | (aReqs, Except.error e) => some (aReqs, Except.error e)
  | (aReqs, Except.ok ()) =>
    match dnloadBlock b 0 polls with
    | none => none
    | some (dReqs, st) =>
        some (aReqs ++ dReqs,
          if st.status ≠ 0 then
            Except.error ("DFUSe ERASE failed: status=" ++ toString st.status ++
              ", state=" ++ toString st.state)
          else Except.ok ())

/-- C4: `abortToIdle` sends ABORT and reads the state; when that state is
dfuERROR it sends CLRSTATUS and rereads; it throws exactly when the final
observed state is not dfuIDLE.  Consequently a vendor command issued while the
device reports dfuERROR still succeeds: the third conjunct runs `dfuseErase`
with the first observed state dfuERROR and a clean reread, and it completes
with the CLRSTATUS emitted before the DNLOAD command. -/
theorem c4_abortToIdle_spec :
    (∀ s1 s2, (abortToIdle s1 s2).1 =
      if s1 = dfuERROR then
        [DfuReq.abortReq, DfuReq.getStateReq, DfuReq.clrStatus, DfuReq.getStateReq]
      else [DfuReq.abortReq, DfuReq.getStateReq]) ∧
    (∀ s1 s2, (abortToIdle s1 s2).2 = Except.ok () ↔
      (if s1 = dfuERROR then s2 else s1) = dfuIDLE) ∧
    (∀ addr, dfuseErase addr dfuERROR dfuIDLE [⟨0, 0, dfuDNLOAD_IDLE⟩] =
      some ([DfuReq.abortReq, DfuReq.getStateReq, DfuReq.clrStatus, DfuReq.getStateReq,
             DfuReq.dnload 0 (cmdBuffer 0x41 addr), DfuReq.getStatusReq], Except.ok ())) := by
  refine ⟨?_, ?_, ?_⟩
  · intro s1 s2
    by_cases h : s1 = dfuERROR <;> by_cases h2 : (if s1 = dfuERROR then s2 else s1) = dfuIDLE <;>
      simp [abortToIdle, h] at h2 ⊢ <;> simp [h2]
  · intro s1 s2
    by_cases h : s1 = dfuERROR <;> by_cases h2 : (if s1 = dfuERROR then s2 else s1) = dfuIDLE <;>
      simp [abortToIdle, h] at h2 ⊢ <;> simp [h2]
  · intro addr
    rfl

theorem dfuseSetAddress_structure (addr s1 s2 : Nat) (polls : List DfuStatus)
    (reqs : List DfuReq) (res : Except String Unit)
    (habort : (abortToIdle s1 s2).2 = Except.ok ())
    (h : dfuseSetAddress addr s1 s2 polls = some (reqs, res)) :
    ∃ st sleeps, pollUntil dfuDNLOAD_IDLE polls = some (st, sleeps) ∧
      reqs = (abortToIdle s1 s2).1 ++ DfuReq.dnload 0 (cmdBuffer 0x21 addr) ::
        List.replicate (sleeps.length + 1) DfuReq.getStatusReq ∧
      (res = Except.ok () ↔ st.status = 0) := by
  simp only [dfuseSetAddress] at h
  split at h
  · rename_i aReqs e heq
    rw [heq] at habort
    simp at habort
  · rename_i aReqs u heq
    split at h
    · exact absurd h (by simp)
    · rename_i dReqs st heq2
      simp only [dnloadBlock] at heq2
      split at heq2
      · exact absurd heq2 (by simp)
      · rename_i st' sleeps heq3
        simp only [Option.some.injEq, Prod.mk.injEq] at heq2 h
        obtain ⟨hd, hst⟩ := heq2
        refine ⟨st', sleeps, heq3, ?_, ?_⟩
        · rw [← h.1, heq, ← hd]
        · rw [← h.2, ← hst]
          by_cases hs : st'.status = 0 <;> simp [hs]

theorem dfuseErase_structure (addr s1 s2 : Nat) (polls : List DfuStatus)
    (reqs : List DfuReq) (res : Except String Unit)
    (habort : (abortToIdle s1 s2).2 = Except.ok ())
    (h : dfuseErase addr s1 s2 polls = some (reqs, res)) :
    ∃ st sleeps, pollUntil dfuDNLOAD_IDLE polls = some (st, sleeps) ∧
      reqs = (abortToIdle s1 s2).1 ++ DfuReq.dnload 0 (cmdBuffer 0x41 addr) ::
        List.replicate (sleeps.length + 1) DfuReq.getStatusReq ∧
      (res = Except.ok () ↔ st.status = 0) := by
  simp only [dfuseErase] at h
  split at h
  · rename_i aReqs e heq
    rw [heq] at habort
    simp at habort
  · rename_i aReqs u heq
    split at h
    · exact absurd h (by simp)
    · rename_i dReqs st heq2
      simp only [dnloadBlock] at heq2
      split at heq2
      · exact absurd heq2 (by simp)
      · rename_i st' sleeps heq3
        simp only [Option.some.injEq, Prod.mk.injEq] at heq2 h
        obtain ⟨hd, hst⟩ := heq2
        refine ⟨st', sleeps, heq3, ?_, ?_⟩
        · rw [← h.1, heq, ← hd]
        · rw [← h.2, ← hst]
          by_cases hs : st'.status = 0 <;> simp [hs]

/-- C3: `dfuseSetAddress(addr)` and `dfuseErase(addr)` each first run abortToIdle,
then send a 5-byte buffer (byte 0 the opcode 0x21 resp. 0x41, bytes 1-4 the
little-endian 32-bit address) as a DNLOAD with block number 0, poll until
dfuDNLOAD_IDLE, and fail exactly when the resulting status is nonzero. -/
theorem c3_dfuse_command_spec :
    (∀ opcode addr, (cmdBuffer opcode addr).length = 5 ∧
      (cmdBuffer opcode addr).getD 0 0 = opcode ∧
      (cmdBuffer opcode addr).getD 1 0 + 256 * (cmdBuffer opcode addr).getD 2 0 +
        65536 * (cmdBuffer opcode addr).getD 3 0 +
        16777216 * (cmdBuffer opcode addr).getD 4 0 = addr % 4294967296) ∧
    (∀ addr s1 s2 polls reqs res,
      (abortToIdle s1 s2).2 = Except.ok () →
      dfuseSetAddress addr s1 s2 polls = some (reqs, res) →
      ∃ st sleeps, pollUntil dfuDNLOAD_IDLE polls = some (st, sleeps) ∧
        reqs = (abortToIdle s1 s2).1 ++ DfuReq.dnload 0 (cmdBuffer 0x21 addr) ::
          List.replicate (sleeps.length + 1) DfuReq.getStatusReq ∧
        (res = Except.ok () ↔ st.status = 0)) ∧
    (∀ addr s1 s2 polls reqs res,
      (abortToIdle s1 s2).2 = Except.ok () →
      dfuseErase addr s1 s2 polls = some (reqs, res) →
      ∃ st sleeps, pollUntil dfuDNLOAD_IDLE polls = some (st, sleeps) ∧
        reqs = (abortToIdle s1 s2).1 ++ DfuReq.dnload 0 (cmdBuffer 0x41 addr) ::
          List.replicate (sleeps.length + 1) DfuReq.getStatusReq ∧
        (res = Except.ok () ↔ st.status = 0)) := by
  refine ⟨?_, ?_, ?_⟩
  · intro opcode addr
    refine ⟨rfl, rfl, ?_⟩
    simp only [cmdBuffer, List.getD_cons_zero, List.getD_cons_succ]
    omega
  · exact fun addr s1 s2 polls reqs res habort h =>
      dfuseSetAddress_structure addr s1 s2 polls reqs res habort h
  · exact fun addr s1 s2 polls reqs res habort h =>
      dfuseErase_structure addr s1 s2 polls reqs res habort h

/-- Witness for C3 at a concrete input: set-address 0x08004000 from dfuIDLE with
a single clean poll result. -/
theorem c3_dfuse_command_spec_witness :
    ∃ st sleeps, pollUntil dfuDNLOAD_IDLE [⟨0, 0, 5⟩] = some (st, sleeps) ∧
      [DfuReq.abortReq, DfuReq.getStateReq,
        DfuReq.dnload 0 (cmdBuffer 0x21 0x08004000), DfuReq.getStatusReq] =
        (abortToIdle 2 0).1 ++ DfuReq.dnload 0 (cmdBuffer 0x21 0x08004000) ::
          List.replicate (sleeps.length + 1) DfuReq.getStatusReq ∧
      ((Except.ok () : Except String Unit) = Except.ok () ↔ st.status = 0) :=
  c3_dfuse_command_spec.2.1 0x08004000 2 0 [⟨0, 0, 5⟩]
    [DfuReq.abortReq, DfuReq.getStateReq,
      DfuReq.dnload 0 (cmdBuffer 0x21 0x08004000), DfuReq.getStatusReq] (Except.ok ())
    (by rfl) (by rfl)

/-- One DNLOAD block as sent on the wire during `do_download`: its block number
and payload bytes.  The zero-length terminator appears with an empty payload. -/
structure DfuBlock where
  num : Nat
  payload : List Nat
deriving Repr, DecidableEq

/-- The block-sending loop of `do_download` (part_001 lines 1247-1259).  `rem`
is the unsent suffix `data[sent..]` of the image, so the loop guard
`sent < data.byteLength` is `rem.length ≠ 0`, the chunk size is
`min xferSize rem.length` and advancing `sent` by `size` drops `size` bytes.
`dev k` is the terminal status `dnloadBlock` reports after the k-th data block.
`fuel` bounds the number of iterations; `none` means the loop did not finish
within `fuel` iterations.  On success the zero-length terminator block is
appended at the next block number; the post-terminator manifestation wait
issues no DNLOAD requests and is not part of the block trace. -/
def downloadLoop (dev : Nat → DfuStatus) (xferSize : Nat) (fuel : Nat) (rem : List Nat)
    (block k : Nat) : Option (List DfuBlock × Except String Unit) :=
  if rem.length = 0 then
    some ([⟨block, []⟩], Except.ok ())
  else
    match fuel with
    | 0 => none
    | fuel + 1 =>
      let size := min xferSize rem.length
      let st := dev k
      if st.status ≠ 0 then
        some ([⟨block, rem.take size⟩],
          Except.error ("DFU DOWNLOAD failed state=" ++ toString st.state ++
            " status=" ++ toString st.status))
      else
        match downloadLoop dev xferSize fuel (rem.drop size) (block + 1) (k + 1) with
        | none => none
        | some (tr, r) => some (⟨block, rem.take size⟩ :: tr, r)

/-- `do_download` block phase: the source's default `firstBlock` parameter value
is 2 (blocks 0 and 1 are reserved for DFUSe vendor commands) and all callers in
the repository pass 2.  Fuel `data.length` suffices whenever `xferSize ≥ 1`. -/
def do_download (dev : Nat → DfuStatus) (xferSize : Nat) (data : List Nat)
    (firstBlock : Nat) : Option (List DfuBlock × Except String Unit) :=
  downloadLoop dev xferSize data.length data firstBlock 0

/-- ceil(L / S), the number of data chunks a length-L buffer yields at chunk
size S. -/
def numChunks (S L : Nat) : Nat := (L + S - 1) / S

/-- Closed form of the trace `downloadLoop` produces when every per-block status
is OK: `n` data chunks then the zero-length terminator. -/
def okBlocks (S : Nat) : Nat → List Nat → Nat → List DfuBlock
  | 0, _, b => [⟨b, []⟩]
  | n + 1, rem, b =>
      ⟨b, rem.take (min S rem.length)⟩ :: okBlocks S n (rem.drop (min S rem.length)) (b + 1)

/-- Closed form of the first `n` data blocks sent from `rem` starting at block
number `b` (no terminator). -/
def dataChunks (S : Nat) : Nat → List Nat → Nat → List DfuBlock
  | 0, _, _ => []
  | n + 1, rem, b =>
      ⟨b, rem.take (min S rem.length)⟩ :: dataChunks S n (rem.drop (min S rem.length)) (b + 1)

theorem numChunks_zero (S : Nat) (hS : 1 ≤ S) : numChunks S 0 = 0 := by
  unfold numChunks
  exact Nat.div_eq_of_lt (by omega)

theorem numChunks_pos_step (S L : Nat) (hS : 1 ≤ S) (hL : 1 ≤ L) :
    numChunks S L = numChunks S (L - min S L) + 1 := by
  unfold numChunks
  by_cases h : L ≤ S
  · have hmin : min S L = L := by omega
    rw [hmin]
    have h0 : (L - L + S - 1) / S = 0 := by
      apply Nat.div_eq_of_lt
      omega
    rw [h0]
    have h1 : (L + S - 1) / S = 1 := by
      apply Nat.le_antisymm
      · exact Nat.lt_succ_iff.mp
          ((Nat.div_lt_iff_lt_mul (by omega)).mpr (show L + S - 1 < 2 * S by omega))
      · exact (Nat.le_div_iff_mul_le (by omega)).mpr (by omega)
    omega
  · have hmin : min S L = S := by omega
    rw [hmin]
    have e1 : L + S - 1 = (L - 1 - S) + S + S := by omega
    have e2 : L - S + S - 1 = (L - 1 - S) + S := by omega
    rw [e1, e2, Nat.add_div_right _ (by omega), Nat.add_div_right _ (by omega)]

theorem downloadLoop_ok (dev : Nat → DfuStatus) (S : Nat) (hS : 1 ≤ S)
    (hdev : ∀ j, (dev j).status = 0) :
    ∀ fuel (rem : List Nat) (b k : Nat), rem.length ≤ fuel →
      downloadLoop dev S fuel rem b k =
        some (okBlocks S (numChunks S rem.length) rem b, Except.ok ()) := by
  intro fuel
  induction fuel with
  | zero =>
    intro rem b k hlen
    have : rem.length = 0 := by omega
    rw [downloadLoop, if_pos this, this, numChunks_zero S hS, okBlocks]
  | succ f ih =>
    intro rem b k hlen
    by_cases h0 : rem.length = 0
    · rw [downloadLoop, if_pos h0, h0, numChunks_zero S hS, okBlocks]
    · rw [downloadLoop, if_neg h0]
      simp only [hdev k, ne_eq, not_true_eq_false, if_neg, ite_false]
      have hrec := ih (rem.drop (min S rem.length)) (b + 1) (k + 1)
        (by simp [List.length_drop]; omega)
      rw [hrec]
      have hn : numChunks S rem.length = numChunks S (rem.drop (min S rem.length)).length + 1 := by
        rw [List.length_drop]
        exact numChunks_pos_step S rem.length hS (by omega)
      rw [hn, okBlocks]

theorem okBlocks_eq_concat (S : Nat) :
    ∀ n (rem : List Nat) (b : Nat),
      okBlocks S n rem b = dataChunks S n rem b ++ [⟨b + n, []⟩] := by
  intro n
  induction n with
  | zero => intro rem b; simp [okBlocks, dataChunks]
  | succ n ih =>
    intro rem b
    rw [okBlocks, dataChunks, ih]
    simp only [List.cons_append, List.cons.injEq, List.append_cancel_left_eq,
      List.cons.injEq, and_true, true_and]
    congr 1
    omega

theorem dataChunks_length (S : Nat) :
    ∀ n (rem : List Nat) (b : Nat), (dataChunks S n rem b).length = n := by
  intro n
  induction n with
  | zero => intro rem b; rfl
  | succ n ih => intro rem b; rw [dataChunks]; simp [ih]

theorem dataChunks_map_num (S : Nat) :
    ∀ n (rem : List Nat) (b : Nat),
      (dataChunks S n rem b).map DfuBlock.num = List.range' b n := by
  intro n
  induction n with
  | zero => intro rem b; rfl
  | succ n ih =>
    intro rem b
    rw [dataChunks, List.range'_succ b n 1]
    simp [ih]

theorem numChunks_eq_zero_iff (S L : Nat) (hS : 1 ≤ S) : numChunks S L = 0 ↔ L = 0 := by
  constructor
  · intro h
    by_contra hL
    have h1 : 1 ≤ L := by omega
    have h2 : 1 ≤ numChunks S L := by
      unfold numChunks
      exact (Nat.le_div_iff_mul_le (by omega)).mpr (by omega)
    omega
  · intro h
    rw [h]
    exact numChunks_zero S hS

theorem dataChunks_payload (S : Nat) (hS : 1 ≤ S) :
    ∀ n (rem : List Nat) (b : Nat), n ≤ numChunks S rem.length →
      ∀ blk ∈ dataChunks S n rem b, blk.payload.length ≤ S ∧ blk.payload ≠ [] := by
  intro n
  induction n with
  | zero => intro rem b _ blk hblk; simp [dataChunks] at hblk
  | succ n ih =>
    intro rem b hn blk hblk
    have hL : 1 ≤ rem.length := by
      by_contra hc
      have h0 : rem.length = 0 := by omega
      rw [(numChunks_eq_zero_iff S rem.length hS).mpr h0] at hn
      omega
    rw [dataChunks] at hblk
    rcases List.mem_cons.mp hblk with h | h
    · subst h
      refine ⟨?_, ?_⟩
      · simp only [List.length_take]
        omega
      · apply List.ne_nil_of_length_pos
        simp only [List.length_take]
        omega
    · have hstep := numChunks_pos_step S rem.length hS hL
      have hn' : n ≤ numChunks S (rem.drop (min S rem.length)).length := by
        rw [List.length_drop]
        omega
      exact ih (rem.drop (min S rem.length)) (b + 1) hn' blk h

/-- C1: with every per-block status OK and chunk size `S ≥ 1`, `do_download`
sends exactly ceil(L/S) data DNLOAD blocks, each nonempty and carrying at most
`S` bytes, with block numbers increasing by 1 from `firstBlock` (the source's
default value is 2), followed by exactly one zero-length DNLOAD block at the
next block number. -/
theorem c1_do_download_blocks (dev : Nat → DfuStatus) (S fb : Nat) (data : List Nat)
    (hS : 1 ≤ S) (hdev : ∀ k, (dev k).status = 0) :
    ∃ tr, do_download dev S data fb = some (tr, Except.ok ()) ∧
      tr = dataChunks S (numChunks S data.length) data fb ++
        [⟨fb + numChunks S data.length, []⟩] ∧
      tr.dropLast.length = numChunks S data.length ∧
      tr.dropLast.map DfuBlock.num = List.range' fb (numChunks S data.length) ∧
      (∀ blk ∈ tr.dropLast, blk.payload.length ≤ S ∧ blk.payload ≠ []) ∧
      tr.getLast? = some ⟨fb + numChunks S data.length, []⟩ := by
  refine ⟨okBlocks S (numChunks S data.length) data fb, ?_, ?_, ?_, ?_, ?_, ?_⟩
  · exact downloadLoop_ok dev S hS hdev data.length data fb 0 (le_refl _)
  · exact okBlocks_eq_concat S (numChunks S data.length) data fb
  · rw [okBlocks_eq_concat, List.dropLast_concat, dataChunks_length]
  · rw [okBlocks_eq_concat, List.dropLast_concat, dataChunks_map_num]
  · rw [okBlocks_eq_concat, List.dropLast_concat]
    exact dataChunks_payload S hS (numChunks S data.length) data fb (le_refl _)
  · rw [okBlocks_eq_concat, List.getLast?_concat]

/-- Witness for C1: a 4-byte image at chunk size 3 and firstBlock 2 (two data
blocks, blocks 2 and 3, then the terminator at block 4). -/
theorem c1_do_download_blocks_witness :
    ∃ tr, do_download (fun _ => ⟨0, 0, 5⟩) 3 [10, 11, 12, 13] 2 =
        some (tr, Except.ok ()) ∧
      tr = dataChunks 3 (numChunks 3 4) [10, 11, 12, 13] 2 ++ [⟨2 + numChunks 3 4, []⟩] ∧
      tr.dropLast.length = numChunks 3 4 ∧
      tr.dropLast.map DfuBlock.num = List.range' 2 (numChunks 3 4) ∧
      (∀ blk ∈ tr.dropLast, blk.payload.length ≤ 3 ∧ blk.payload ≠ []) ∧
      tr.getLast? = some ⟨2 + numChunks 3 4, []⟩ := by
  have h := c1_do_download_blocks (fun _ => ⟨0, 0, 5⟩) 3 2 [10, 11, 12, 13]
    (by decide) (fun k => rfl)
  simpa using h

theorem downloadLoop_fail (dev : Nat → DfuStatus) (S : Nat) (hS : 1 ≤ S) :
    ∀ j fuel (rem : List Nat) (b k : Nat), rem.length ≤ fuel →
      j < numChunks S rem.length →
      (∀ i, i < j → (dev (k + i)).status = 0) →
      (dev (k + j)).status ≠ 0 →
      downloadLoop dev S fuel rem b k =
        some (dataChunks S (j + 1) rem b,
          Except.error ("DFU DOWNLOAD failed state=" ++ toString (dev (k + j)).state ++
            " status=" ++ toString (dev (k + j)).status)) := by
  intro j
  induction j with
  | zero =>
    intro fuel rem b k hfuel hj hok hfail
    have hL : 1 ≤ rem.length := by
      by_contra hc
      have h0 : rem.length = 0 := by omega
      rw [(numChunks_eq_zero_iff S rem.length hS).mpr h0] at hj
      omega
    obtain ⟨f, rfl⟩ : ∃ f, fuel = f + 1 := ⟨fuel - 1, by omega⟩
    rw [downloadLoop, if_neg (by omega)]
    simp only [Nat.add_zero] at hfail
    simp only [hfail, ne_eq, not_false_eq_true, if_true, ite_true]
    rw [dataChunks, dataChunks]
    simp
  | succ j ih =>
    intro fuel rem b k hfuel hj hok hfail
    have hL : 1 ≤ rem.length := by
      by_contra hc
      have h0 : rem.length = 0 := by omega
      rw [(numChunks_eq_zero_iff S rem.length hS).mpr h0] at hj
      omega
    obtain ⟨f, rfl⟩ : ∃ f, fuel = f + 1 := ⟨fuel - 1, by omega⟩
    rw [downloadLoop, if_neg (by omega)]
    have h0 : (dev k).status = 0 := by
      have := hok 0 (by omega)
      simpa using this
    simp only [h0, ne_eq, not_true_eq_false, if_neg, ite_false]
    have hstep := numChunks_pos_step S rem.length hS hL
    have hrec := ih f (rem.drop (min S rem.length)) (b + 1) (k + 1)
      (by simp [List.length_drop]; omega)
      (by rw [List.length_drop]; omega)
      (fun i hi => by
        have := hok (i + 1) (by omega)
        rwa [show k + (i + 1) = k + 1 + i by omega] at this)
      (by rwa [show k + 1 + j = k + (j + 1) by omega])
    rw [hrec]
    rw [show k + 1 + j = k + (j + 1) by omega]
    rfl

/-- C6: if the device reports a nonzero status after data block `j` (with every
earlier block OK), `do_download` fails with the protocol error naming the device
state and status code, the trace contains exactly the `j + 1` data blocks sent
up to and including the failing one, every block in it is nonempty (no
zero-length terminator is sent), and no further blocks follow. -/
theorem c6_do_download_fail (dev : Nat → DfuStatus) (S fb j : Nat) (data : List Nat)
    (hS : 1 ≤ S) (hj : j < numChunks S data.length)
    (hok : ∀ i, i < j → (dev i).status = 0) (hfail : (dev j).status ≠ 0) :
    ∃ tr, do_download dev S data fb =
        some (tr, Except.error ("DFU DOWNLOAD failed state=" ++ toString (dev j).state ++
          " status=" ++ toString (dev j).status)) ∧
      tr.length = j + 1 ∧
      tr.map DfuBlock.num = List.range' fb (j + 1) ∧
      (∀ blk ∈ tr, blk.payload.length ≤ S ∧ blk.payload ≠ []) := by
  refine ⟨dataChunks S (j + 1) data fb, ?_, ?_, ?_, ?_⟩
  · have h := downloadLoop_fail dev S hS j data.length data fb 0 (le_refl _) hj
      (fun i hi => by simpa using hok i hi) (by simpa using hfail)
    simpa using h
  · exact dataChunks_length S (j + 1) data fb
  · exact dataChunks_map_num S (j + 1) data fb
  · exact dataChunks_payload S hS (j + 1) data fb (by omega) 

/-- Witness for C6: a 6-byte image at chunk size 2, failing with status 5
(errWRITE) on the second data block (j = 1). -/
theorem c6_do_download_fail_witness :
    ∃ tr, do_download (fun k => if k = 0 then ⟨0, 0, 5⟩ else ⟨5, 0, 10⟩) 2
          [1, 2, 3, 4, 5, 6] 2 =
        some (tr, Except.error ("DFU DOWNLOAD failed state=" ++
          toString ((fun k => if k = 0 then (⟨0, 0, 5⟩ : DfuStatus) else ⟨5, 0, 10⟩) 1).state ++
          " status=" ++
          toString ((fun k => if k = 0 then (⟨0, 0, 5⟩ : DfuStatus) else ⟨5, 0, 10⟩) 1).status)) ∧
      tr.length = 1 + 1 ∧
      tr.map DfuBlock.num = List.range' 2 (1 + 1) ∧
      (∀ blk ∈ tr, blk.payload.length ≤ 2 ∧ blk.payload ≠ []) :=
  c6_do_download_fail (fun k => if k = 0 then ⟨0, 0, 5⟩ else ⟨5, 0, 10⟩) 2 2 1
    [1, 2, 3, 4, 5, 6] (by decide) (by decide)
    (fun i hi => by interval_cases i <;> rfl) (by decide)

theorem downloadLoop_total (dev : Nat → DfuStatus) (S : Nat) (hS : 1 ≤ S) :
    ∀ fuel (rem : List Nat) (b k : Nat), rem.length ≤ fuel →
      ∃ out, downloadLoop dev S fuel rem b k = some out := by
  intro fuel
  induction fuel with
  | zero =>
    intro rem b k hlen
    have h0 : rem.length = 0 := by omega
    exact ⟨_, by rw [downloadLoop, if_pos h0]⟩
  | succ f ih =>
    intro rem b k hlen
    by_cases h0 : rem.length = 0
    · exact ⟨_, by rw [downloadLoop, if_pos h0]⟩
    · by_cases hst : (dev k).status = 0
      · obtain ⟨⟨tr, r⟩, hout⟩ := ih (rem.drop (min S rem.length)) (b + 1) (k + 1)
          (by simp [List.length_drop]; omega)
        refine ⟨(⟨b, rem.take (min S rem.length)⟩ :: tr, r), ?_⟩
        rw [downloadLoop, if_neg h0]
        simp only [hst, ne_eq, not_true_eq_false, if_neg, ite_false]
        rw [hout]
      · refine ⟨([⟨b, rem.take (min S rem.length)⟩],
          Except.error ("DFU DOWNLOAD failed state=" ++ toString (dev k).state ++
            " status=" ++ toString (dev k).status)), ?_⟩
        rw [downloadLoop, if_neg h0]
        simp only [hst, ne_eq, not_false_eq_true, if_true, ite_true]

theorem downloadLoop_zero_size_stuck (dev : Nat → DfuStatus)
    (hdev : ∀ j, (dev j).status = 0) :
    ∀ fuel (data : List Nat) (b k : Nat), data ≠ [] →
      downloadLoop dev 0 fuel data b k = none := by
  intro fuel
  induction fuel with
  | zero =>
    intro data b k hne
    rw [downloadLoop, if_neg (by simpa [List.length_eq_zero] using hne)]
  | succ f ih =>
    intro data b k hne
    rw [downloadLoop, if_neg (by simpa [List.length_eq_zero] using hne)]
    simp only [hdev k, ne_eq, not_true_eq_false, if_neg, ite_false]
    have : min 0 data.length = 0 := by omega
    rw [this, List.drop_zero, ih data (b + 1) (k + 1) hne]

/-- C10: the block loop of `do_download` terminates for every buffer when
`xferSize ≥ 1` (fuel `data.length` always suffices, because each iteration
consumes `min xferSize remaining ≥ 1` bytes); the precondition is necessary:
with `xferSize = 0` and a non-empty buffer the unsent remainder never shrinks
and the loop runs forever (no amount of fuel makes it finish). -/
theorem c10_do_download_termination :
    (∀ (dev : Nat → DfuStatus) S (data : List Nat) fb, 1 ≤ S →
      ∃ out, do_download dev S data fb = some out) ∧
    (∀ (dev : Nat → DfuStatus) (data : List Nat) fb k fuel, data ≠ [] →
      (∀ j, (dev j).status = 0) →
      downloadLoop dev 0 fuel data fb k = none) :=
  ⟨fun dev S data fb hS => downloadLoop_total dev S hS data.length data fb 0 (le_refl _),
   fun dev data fb k fuel hne hdev => downloadLoop_zero_size_stuck dev hdev fuel data fb k hne⟩

/-- Witness for C10: termination on a concrete 3-byte buffer at size 2, and the
zero-size loop stuck on the same buffer at any fuel. -/
theorem c10_do_download_termination_witness :
    (∃ out, do_download (fun _ => ⟨0, 0, 5⟩) 2 [7, 8, 9] 2 = some out) ∧
    downloadLoop (fun _ => ⟨0, 0, 5⟩) 0 100 [7, 8, 9] 2 0 = none :=
  ⟨c10_do_download_termination.1 (fun _ => ⟨0, 0, 5⟩) 2 [7, 8, 9] 2 (by decide),
   c10_do_download_termination.2 (fun _ => ⟨0, 0, 5⟩) [7, 8, 9] 2 0 100 (by decide)
     (fun j => rfl)⟩

/-- Does `pat` match the front of `s` character by character. -/
def leadMatch : List Char → List Char → Bool
  | [], _ => true
  | _ :: _, [] => false
  | a :: as, b :: bs => a == b && leadMatch as bs

/-- Does `pat` occur as a contiguous run anywhere in `s`. -/
def seekSub (pat : List Char) : List Char → Bool
  | [] => leadMatch pat []
  | c :: cs => leadMatch pat (c :: cs) || seekSub pat cs

/-- JS `s.includes(pat)` on the underlying character lists. -/
def strIncludes (s pat : String) : Bool := seekSub pat.data s.data

/-- Result of one retry-orchestrator run: overall success, or the last error
rethrown (`none` models rethrowing the JS `undefined` when no size was ever
attempted). -/
inductive RetryOutcome
  | success
  | hardFail (msg : Option String)
deriving Repr, DecidableEq

/-- The loop of `flashWithRetry` (part_001 lines 1402-1447).  `attempt s` is the
outcome of `dev.do_download(s, data, true, 2)` at transfer size `s`; `dataLen`
is `data.byteLength`.  Besides the outcome the model returns the list of sizes
passed to `do_download`, in order.  The source's `totalProgress` constant is 0
and is never updated, so the JS guard `totalProgress >= data.byteLength * 0.9`
is the integer condition `totalProgress * 10 ≥ dataLen * 9`. -/
def flashRetryLoop (attempt : Nat → Except String Unit) (dataLen : Nat) :
    List Nat → List Nat → Option String → RetryOutcome × List Nat
  | [], _, lastErr =>
    (match lastErr with
     | some msg =>
        if strIncludes msg "disconnected" then RetryOutcome.success
        else RetryOutcome.hardFail (some msg)
     | none => RetryOutcome.hardFail none, [])
  | s :: rest, tried, lastErr =>
    if s ∈ tried then flashRetryLoop attempt dataLen rest tried lastErr
    else
      match attempt s with
      | Except.ok _ => (RetryOutcome.success, [s])
      | Except.error msg =>
        let totalProgress := 0
        if strIncludes msg "disconnected" then
          if totalProgress * 10 ≥ dataLen * 9 then (RetryOutcome.success, [s])
          else if (s :: tried).length > 1 then (RetryOutcome.success, [s])
          else
            match flashRetryLoop attempt dataLen rest (s :: tried) (some msg) with
            | (o, tr) => (o, s :: tr)
        else
          match flashRetryLoop attempt dataLen rest (s :: tried) (some msg) with
          | (o, tr) => (o, s :: tr)

/-- `flashWithRetry`: run the loop over the fixed descending ladder
[2048, 1024, 512, 256] with nothing tried and no last error. -/
def flashWithRetry (attempt : Nat → Except String Unit) (dataLen : Nat) :
    RetryOutcome × List Nat :=
  flashRetryLoop attempt dataLen [2048, 1024, 512, 256] [] none

/-- The loop of `writeWithFallback` (part_001 lines 1350-1400): identical to
`flashRetryLoop` except that the candidate ladder is a parameter and there is
no progress-based guard. -/
def fallbackLoop (attempt : Nat → Except String Unit) :
    List Nat → List Nat → Option String → RetryOutcome × List Nat
  | [], _, lastErr =>
    (match lastErr with
     | some msg =>
        if strIncludes msg "disconnected" then RetryOutcome.success
        else RetryOutcome.hardFail (some msg)
     | none => RetryOutcome.hardFail none, [])
  | s :: rest, tried, lastErr =>
    if s ∈ tried then fallbackLoop attempt rest tried lastErr
    else
      match attempt s with
      | Except.ok _ => (RetryOutcome.success, [s])
      | Except.error msg =>
        if strIncludes msg "disconnected" then
          if (s :: tried).length > 1 then (RetryOutcome.success, [s])
          else
            match fallbackLoop attempt rest (s :: tried) (some msg) with
            | (o, tr) => (o, s :: tr)
        else
          match fallbackLoop attempt rest (s :: tried) (some msg) with
          | (o, tr) => (o, s :: tr)

/-- `writeWithFallback`: run the fallback loop over a caller-supplied ladder
(which may contain duplicates, e.g. when the descriptor-reported size equals a
hard-coded fallback). -/
def writeWithFallback (attempt : Nat → Except String Unit) (sizes : List Nat) :
    RetryOutcome × List Nat :=
  fallbackLoop attempt sizes [] none

theorem flashRetryLoop_head (attempt : Nat → Except String Unit) (dataLen s : Nat)
    (rest tried : List Nat) (lastErr : Option String) (hmem : s ∉ tried) :
    ∃ tr, (flashRetryLoop attempt dataLen (s :: rest) tried lastErr).2 = s :: tr := by
  rw [flashRetryLoop, if_neg hmem]
  cases hatt : attempt s with
  | ok u => exact ⟨[], rfl⟩
  | error msg =>
    by_cases hdisc : strIncludes msg "disconnected" = true
    · simp only [hdisc, if_true, ite_true]
      by_cases hp : 0 * 10 ≥ dataLen * 9
      · rw [if_pos hp]
        exact ⟨[], rfl⟩
      · rw [if_neg hp]
        by_cases hlen : (s :: tried).length > 1
        · rw [if_pos hlen]
          exact ⟨[], rfl⟩
        · rw [if_neg hlen]
          rcases hrec : flashRetryLoop attempt dataLen rest (s :: tried) (some msg) with ⟨o, tr⟩
          exact ⟨tr, rfl⟩
    · simp only [Bool.not_eq_true] at hdisc
      simp only [hdisc, Bool.false_eq_true, if_false, ite_false]
      rcases hrec : flashRetryLoop attempt dataLen rest (s :: tried) (some msg) with ⟨o, tr⟩
      exact ⟨tr, rfl⟩

theorem flashRetryLoop_later_disconnect (attempt : Nat → Except String Unit)
    (dataLen s : Nat) (rest tried : List Nat) (lastErr : Option String) (msg : String)
    (htried : tried ≠ []) (hmem : s ∉ tried) (hatt : attempt s = Except.error msg)
    (hdisc : strIncludes msg "disconnected" = true) :
    flashRetryLoop attempt dataLen (s :: rest) tried lastErr =
      (RetryOutcome.success, [s]) := by
  rw [flashRetryLoop, if_neg hmem, hatt]
  simp only [hdisc, if_true, ite_true]
  by_cases hp : 0 * 10 ≥ dataLen * 9
  · rw [if_pos hp]
  · rw [if_neg hp, if_pos (by cases tried with
      | nil => exact absurd rfl htried
      | cons t ts => simp)]

theorem flashRetryLoop_first_disconnect_retries (attempt : Nat → Except String Unit)
    (dataLen : Nat) (msg : String) (hatt : attempt 2048 = Except.error msg)
    (hdisc : strIncludes msg "disconnected" = true) (hL : 0 < dataLen) :
    (flashWithRetry attempt dataLen).2.take 2 = [2048, 1024] := by
  obtain ⟨tr, htr⟩ := flashRetryLoop_head attempt dataLen 1024 [512, 256] [2048]
    (some msg) (by decide)
  unfold flashWithRetry
  rw [flashRetryLoop, if_neg (by decide), hatt]
  simp only [hdisc, if_true, ite_true]
  rw [if_neg (by omega), if_neg (by decide)]
  rcases hrec : flashRetryLoop attempt dataLen [1024, 512, 256] [2048] (some msg) with ⟨o, tr2⟩
  rw [hrec] at htr
  simp only at htr
  simp [htr]

theorem flashRetryLoop_exhausted_disconnect (attempt : Nat → Except String Unit)
    (dataLen : Nat) (tried : List Nat) (msg : String)
    (hdisc : strIncludes msg "disconnected" = true) :
    flashRetryLoop attempt dataLen [] tried (some msg) = (RetryOutcome.success, []) := by
  rw [flashRetryLoop]
  simp [hdisc]

theorem flashRetryLoop_last_hard_failure (attempt : Nat → Except String Unit)
    (dataLen s : Nat) (tried : List Nat) (lastErr : Option String) (msg : String)
    (hmem : s ∉ tried) (hatt : attempt s = Except.error msg)
    (hdisc : strIncludes msg "disconnected" = false) :
    flashRetryLoop attempt dataLen [s] tried lastErr =
      (RetryOutcome.hardFail (some msg), [s]) := by
  rw [flashRetryLoop, if_neg hmem, hatt]
  simp only [hdisc, Bool.false_eq_true, if_false, ite_false]
  rw [flashRetryLoop]
  simp [hdisc]

/-- C2 (amended): over the descending ladder, (a) a disconnection failure on a
size that is not the first tried is overall success; (b) a disconnection on the
first size tried leads to the next smaller size (1024 after 2048) being
attempted rather than immediate success, provided the firmware buffer is
non-empty — for an empty buffer the progress guard `0 >= 0.9 * 0` already
declares success (see the counterexample); (c) if every size is exhausted and
the last failure was a disconnection the run is a success; (d) a
non-disconnection failure on the last size is rethrown as a hard failure. -/
theorem c2_retry_orchestrator (attempt : Nat → Except String Unit) (dataLen : Nat) :
    (∀ s rest tried lastErr msg, tried ≠ [] → s ∉ tried →
      attempt s = Except.error msg → strIncludes msg "disconnected" = true →
      flashRetryLoop attempt dataLen (s :: rest) tried lastErr =
        (RetryOutcome.success, [s])) ∧
    (∀ msg, attempt 2048 = Except.error msg → strIncludes msg "disconnected" = true →
      0 < dataLen → (flashWithRetry attempt dataLen).2.take 2 = [2048, 1024]) ∧
    (∀ tried msg, strIncludes msg "disconnected" = true →
      flashRetryLoop attempt dataLen [] tried (some msg) = (RetryOutcome.success, [])) ∧
    (∀ s tried lastErr msg, s ∉ tried → attempt s = Except.error msg →
      strIncludes msg "disconnected" = false →
      flashRetryLoop attempt dataLen [s] tried lastErr =
        (RetryOutcome.hardFail (some msg), [s])) :=
  ⟨fun s rest tried lastErr msg htried hmem hatt hdisc =>
      flashRetryLoop_later_disconnect attempt dataLen s rest tried lastErr msg
        htried hmem hatt hdisc,
   fun msg hatt hdisc hL =>
      flashRetryLoop_first_disconnect_retries attempt dataLen msg hatt hdisc hL,
   fun tried msg hdisc =>
      flashRetryLoop_exhausted_disconnect attempt dataLen tried msg hdisc,
   fun s tried lastErr msg hmem hatt hdisc =>
      flashRetryLoop_last_hard_failure attempt dataLen s tried lastErr msg hmem hatt hdisc⟩

/-- Counterexample to C2 as stated: with an empty firmware buffer, a
disconnection on the very first size (2048) is declared an overall success and
no smaller size is attempted (the attempted-size trace is exactly [2048]),
because the source's progress guard compares the constant 0 against
`0.9 * byteLength = 0`. -/
theorem c2_first_size_disconnect_counterexample :
    flashWithRetry (fun _ => Except.error "The device was disconnected.") 0 =
      (RetryOutcome.success, [2048]) := by decide

/-- Witness for C2 at concrete inputs, exercising all four clauses. -/
theorem c2_retry_orchestrator_witness :
    (flashRetryLoop (fun _ => Except.error "device disconnected") 4
        (1024 :: [512]) [2048] none = (RetryOutcome.success, [1024])) ∧
    ((flashWithRetry (fun _ => Except.error "device disconnected") 4).2.take 2 =
      [2048, 1024]) ∧
    (flashRetryLoop (fun _ => Except.error "device disconnected") 4 [] [2048]
        (some "device disconnected") = (RetryOutcome.success, [])) ∧
    (flashRetryLoop (fun _ => Except.error "bus stall") 4 [256] [2048, 1024, 512] none =
      (RetryOutcome.hardFail (some "bus stall"), [256])) :=
  ⟨(c2_retry_orchestrator (fun _ => Except.error "device disconnected") 4).1
      1024 [512] [2048] none "device disconnected" (by decide) (by decide) rfl (by decide),
   (c2_retry_orchestrator (fun _ => Except.error "device disconnected") 4).2.1
      "device disconnected" rfl (by decide) (by decide),
   (c2_retry_orchestrator (fun _ => Except.error "device disconnected") 4).2.2.1
      [2048] "device disconnected" (by decide),
   (c2_retry_orchestrator (fun _ => Except.error "bus stall") 4).2.2.2
      256 [2048, 1024, 512] none "bus stall" (by decide) rfl (by decide)⟩

theorem fallbackLoop_trace_fresh (attempt : Nat → Except String Unit) :
    ∀ (sizes tried : List Nat) (lastErr : Option String),
      (fallbackLoop attempt sizes tried lastErr).2.Nodup ∧
      ∀ x ∈ (fallbackLoop attempt sizes tried lastErr).2, x ∉ tried := by
  intro sizes
  induction sizes with
  | nil =>
    intro tried lastErr
    constructor
    · cases lastErr <;> simp [fallbackLoop]
    · cases lastErr <;> simp [fallbackLoop]
  | cons s rest ih =>
    intro tried lastErr
    by_cases hmem : s ∈ tried
    · rw [fallbackLoop, if_pos hmem]
      exact ih tried lastErr
    · rw [fallbackLoop, if_neg hmem]
      cases hatt : attempt s with
      | ok u => exact ⟨List.nodup_singleton s, by simpa using hmem⟩
      | error msg =>
        by_cases hdisc : strIncludes msg "disconnected" = true
        · simp only [hdisc, if_true, ite_true]
          by_cases hlen : (s :: tried).length > 1
          · rw [if_pos hlen]
            exact ⟨List.nodup_singleton s, by simpa using hmem⟩
          · rw [if_neg hlen]
            rcases hrec : fallbackLoop attempt rest (s :: tried) (some msg) with ⟨o, tr⟩
            have hih := ih (s :: tried) (some msg)
            rw [hrec] at hih
            simp only at hih
            refine ⟨?_, ?_⟩
            · exact List.nodup_cons.mpr
                ⟨fun hx => (hih.2 s hx) (List.mem_cons_self s tried), hih.1⟩
            · intro x hx
              rcases List.mem_cons.mp hx with h | h
              · exact h ▸ hmem
              · exact fun hxt => (hih.2 x h) (List.mem_cons_of_mem s hxt)
        · simp only [Bool.not_eq_true] at hdisc
          simp only [hdisc, Bool.false_eq_true, if_false, ite_false]
          rcases hrec : fallbackLoop attempt rest (s :: tried) (some msg) with ⟨o, tr⟩
          have hih := ih (s :: tried) (some msg)
          rw [hrec] at hih
          simp only at hih
          refine ⟨?_, ?_⟩
          · exact List.nodup_cons.mpr
              ⟨fun hx => (hih.2 s hx) (List.mem_cons_self s tried), hih.1⟩
          · intro x hx
            rcases List.mem_cons.mp hx with h | h
            · exact h ▸ hmem
            · exact fun hxt => (hih.2 x h) (List.mem_cons_of_mem s hxt)

theorem flashRetryLoop_trace_fresh (attempt : Nat → Except String Unit) (dataLen : Nat) :
    ∀ (sizes tried : List Nat) (lastErr : Option String),
      (flashRetryLoop attempt dataLen sizes tried lastErr).2.Nodup ∧
      ∀ x ∈ (flashRetryLoop attempt dataLen sizes tried lastErr).2, x ∉ tried := by
  intro sizes
  induction sizes with
  | nil =>
    intro tried lastErr
    constructor
    · cases lastErr <;> simp [flashRetryLoop]
    · cases lastErr <;> simp [flashRetryLoop]
  | cons s rest ih =>
    intro tried lastErr
    by_cases hmem : s ∈ tried
    · rw [flashRetryLoop, if_pos hmem]
      exact ih tried lastErr
    · rw [flashRetryLoop, if_neg hmem]
      cases hatt : attempt s with
      | ok u => exact ⟨List.nodup_singleton s, by simpa using hmem⟩
      | error msg =>
        by_cases hdisc : strIncludes msg "disconnected" = true
        · simp only [hdisc, if_true, ite_true]
          by_cases hp : 0 * 10 ≥ dataLen * 9
          · rw [if_pos hp]
            exact ⟨List.nodup_singleton s, by simpa using hmem⟩
          · rw [if_neg hp]
            by_cases hlen : (s :: tried).length > 1
            · rw [if_pos hlen]
              exact ⟨List.nodup_singleton s, by simpa using hmem⟩
            · rw [if_neg hlen]
              rcases hrec : flashRetryLoop attempt dataLen rest (s :: tried) (some msg)
                with ⟨o, tr⟩
              have hih := ih (s :: tried) (some msg)
              rw [hrec] at hih
              simp only at hih
              refine ⟨?_, ?_⟩
              · exact List.nodup_cons.mpr
                  ⟨fun hx => (hih.2 s hx) (List.mem_cons_self s tried), hih.1⟩
              · intro x hx
                rcases List.mem_cons.mp hx with h | h
                · exact h ▸ hmem
                · exact fun hxt => (hih.2 x h) (List.mem_cons_of_mem s hxt)
        · simp only [Bool.not_eq_true] at hdisc
          simp only [hdisc, Bool.false_eq_true, if_false, ite_false]
          rcases hrec : flashRetryLoop attempt dataLen rest (s :: tried) (some msg)
            with ⟨o, tr⟩
          have hih := ih (s :: tried) (some msg)
          rw [hrec] at hih
          simp only at hih
          refine ⟨?_, ?_⟩
          · exact List.nodup_cons.mpr
              ⟨fun hx => (hih.2 s hx) (List.mem_cons_self s tried), hih.1⟩
          · intro x hx
            rcases List.mem_cons.mp hx with h | h
            · exact h ▸ hmem
            · exact fun hxt => (hih.2 x h) (List.mem_cons_of_mem s hxt)

/-- C9: within a single retry-orchestrator run the list of sizes passed to
`do_download` has no duplicates — both for `writeWithFallback` on an arbitrary
ladder (which may contain duplicate candidate values) and for `flashWithRetry`
on its fixed ladder. -/
theorem c9_no_size_reused (attempt : Nat → Except String Unit) (sizes : List Nat)
    (dataLen : Nat) :
    (writeWithFallback attempt sizes).2.Nodup ∧
    (flashWithRetry attempt dataLen).2.Nodup :=
  ⟨(fallbackLoop_trace_fresh attempt sizes [] none).1,
   (flashRetryLoop_trace_fresh attempt dataLen [2048, 1024, 512, 256] [] none).1⟩

/-- Bounds-checked byte read: DataView.getUint8 throws a RangeError when the
index is outside the buffer. -/
def getU8 (bytes : List Nat) (i : Nat) : Except String Nat :=
  if h : i < bytes.length then Except.ok (bytes.get ⟨i, h⟩) else Except.error "RangeError"

/-- The descriptor walk of `getTransferSize` (part_001 lines 1317-1343) over the
full configuration descriptor `bytes`.  The loop guard only checks that two
bytes (bLength, bType) are readable; the field reads inside an interface or
functional record can therefore run past the end of a truncated stream, which
surfaces as a RangeError.  `fuel` bounds the iteration count (each step
advances `offset` by `bLength ≥ 2`); `none` means fuel ran out. -/
def transferSizeLoop (bytes : List Nat) (intfNumber altSetting : Nat) :
    Nat → Nat → Bool → Option (Except String Nat)
  | fuel, offset, inTargetIntf =>
    if offset + 2 ≤ bytes.length then
      match fuel with
      | 0 => none
      | fuel + 1 =>
        let bLength := bytes.getD offset 0
        let bType := bytes.getD (offset + 1) 0
        if bLength < 2 then some (Except.ok 2048)
        else if bType = 4 then
          match getU8 bytes (offset + 2), getU8 bytes (offset + 3), getU8 bytes (offset + 5),
              getU8 bytes (offset + 6), getU8 bytes (offset + 7) with
          | Except.ok intfNum, Except.ok alt, Except.ok cls, Except.ok subcls,
            Except.ok proto =>
              transferSizeLoop bytes intfNumber altSetting fuel (offset + bLength)
                (intfNum == intfNumber && alt == altSetting && cls == 0xfe &&
                  subcls == 0x01 && proto == 0x02)
          | _, _, _, _, _ => some (Except.error "RangeError")
        else if inTargetIntf && bType == 0x21 then
          match getU8 bytes (offset + 5), getU8 bytes (offset + 6) with
          | Except.ok lo, Except.ok hi =>
              let wTransferSize := lo + 256 * hi
              some (Except.ok (if wTransferSize = 0 then 2048 else wTransferSize))
          | _, _ => some (Except.error "RangeError")
        else transferSizeLoop bytes intfNumber altSetting fuel (offset + bLength) inTargetIntf
    else some (Except.ok 2048)

/-- `getTransferSize`, starting the walk past the 9-byte configuration header
with the target-interface flag clear.  Fuel `bytes.length + 1` always suffices
(shown in `transferSizeLoop_total`).  The two preceding device reads are
modelled by `bytes` itself being available; their non-ok statuses throw before
the walk starts. -/
def getTransferSize (bytes : List Nat) (intfNumber altSetting : Nat) :
    Option (Except String Nat) :=
  transferSizeLoop bytes intfNumber altSetting (bytes.length + 1) 9 false

/-- Twin walk of `transferSizeLoop` recording whether the walker ever reaches a
type-0x21 record while inside the matched target interface; `true` means no DFU
functional descriptor occurs inside the matched target interface. -/
def noTargetFunc (bytes : List Nat) (intfNumber altSetting : Nat) :
    Nat → Nat → Bool → Bool
  | fuel, offset, inTargetIntf =>
    if offset + 2 ≤ bytes.length then
      match fuel with
      | 0 => true
      | fuel + 1 =>
        let bLength := bytes.getD offset 0
        let bType := bytes.getD (offset + 1) 0
        if bLength < 2 then true
        else if bType = 4 then
          match getU8 bytes (offset + 2), getU8 bytes (offset + 3), getU8 bytes (offset + 5),
              getU8 bytes (offset + 6), getU8 bytes (offset + 7) with
          | Except.ok intfNum, Except.ok alt, Except.ok cls, Except.ok subcls,
            Except.ok proto =>
              noTargetFunc bytes intfNumber altSetting fuel (offset + bLength)
                (intfNum == intfNumber && alt == altSetting && cls == 0xfe &&
                  subcls == 0x01 && proto == 0x02)
          | _, _, _, _, _ => true
        else if inTargetIntf && bType == 0x21 then false
        else noTargetFunc bytes intfNumber altSetting fuel (offset + bLength) inTargetIntf
    else true

/-- No functional descriptor of type 0x21 inside the matched target interface,
as the walker reads the stream. -/
def hasNoTargetFunc (bytes : List Nat) (intfNumber altSetting : Nat) : Bool :=
  noTargetFunc bytes intfNumber altSetting (bytes.length + 1) 9 false

theorem transferSizeLoop_total (bytes : List Nat) (intfNumber altSetting : Nat) :
    ∀ (fuel offset : Nat) (inT : Bool), bytes.length ≤ 2 * fuel + offset + 1 →
      transferSizeLoop bytes intfNumber altSetting fuel offset inT ≠ none := by
  intro fuel
  induction fuel with
  | zero =>
    intro offset inT hinv
    rw [transferSizeLoop, if_neg (by omega)]
    simp
  | succ fuel ih =>
    intro offset inT hinv
    by_cases hoff : offset + 2 ≤ bytes.length
    · rw [transferSizeLoop, if_pos hoff]
      by_cases hbl : bytes.getD offset 0 < 2
      · simp only [if_pos hbl]
        simp
      · simp only [if_neg hbl]
        by_cases hbt : bytes.getD (offset + 1) 0 = 4
        · simp only [if_pos hbt]
          rcases h2 : getU8 bytes (offset + 2) with e2 | v2 <;>
            rcases h3 : getU8 bytes (offset + 3) with e3 | v3 <;>
            rcases h5 : getU8 bytes (offset + 5) with e5 | v5 <;>
            rcases h6 : getU8 bytes (offset + 6) with e6 | v6 <;>
            rcases h7 : getU8 bytes (offset + 7) with e7 | v7 <;>
            simp only
          all_goals try (simp; done)
          exact ih (offset + bytes.getD offset 0)
            (v2 == intfNumber && v3 == altSetting && v5 == 0xfe &&
              v6 == 0x01 && v7 == 0x02) (by omega)
        · simp only [if_neg hbt]
          by_cases htf : (inT && bytes.getD (offset + 1) 0 == 0x21) = true
          · simp only [htf, if_true, ite_true]
            rcases h5 : getU8 bytes (offset + 5) with e5 | v5 <;>
              rcases h6 : getU8 bytes (offset + 6) with e6 | v6 <;> simp
          · simp only [Bool.not_eq_true] at htf
            simp only [htf, Bool.false_eq_true, if_false, ite_false]
            exact ih (offset + bytes.getD offset 0) inT (by omega)
    · rw [transferSizeLoop, if_neg hoff]
      simp

theorem transferSizeLoop_cases (bytes : List Nat) (intfNumber altSetting : Nat) :
    ∀ (fuel offset : Nat) (inT : Bool),
      noTargetFunc bytes intfNumber altSetting fuel offset inT = true →
      transferSizeLoop bytes intfNumber altSetting fuel offset inT =
          some (Except.ok 2048) ∨
      transferSizeLoop bytes intfNumber altSetting fuel offset inT =
          some (Except.error "RangeError") ∨
      transferSizeLoop bytes intfNumber altSetting fuel offset inT = none := by
  intro fuel
  induction fuel with
  | zero =>
    intro offset inT h
    by_cases hoff : offset + 2 ≤ bytes.length
    · rw [transferSizeLoop, if_pos hoff]
      right; right; rfl
    · rw [transferSizeLoop, if_neg hoff]
      left; rfl
  | succ fuel ih =>
    intro offset inT h
    by_cases hoff : offset + 2 ≤ bytes.length
    · rw [transferSizeLoop, if_pos hoff]
      rw [noTargetFunc, if_pos hoff] at h
      by_cases hbl : bytes.getD offset 0 < 2
      · simp only [if_pos hbl]
        left
        trivial
      · simp only [if_neg hbl] at h ⊢
        by_cases hbt : bytes.getD (offset + 1) 0 = 4
        · simp only [if_pos hbt] at h ⊢
          rcases h2 : getU8 bytes (offset + 2) with e2 | v2 <;>
            rcases h3 : getU8 bytes (offset + 3) with e3 | v3 <;>
            rcases h5 : getU8 bytes (offset + 5) with e5 | v5 <;>
            rcases h6 : getU8 bytes (offset + 6) with e6 | v6 <;>
            rcases h7 : getU8 bytes (offset + 7) with e7 | v7
          all_goals try (simp; done)
          rw [h2, h3, h5, h6, h7] at h
          exact ih (offset + bytes.getD offset 0)
            (v2 == intfNumber && v3 == altSetting && v5 == 0xfe &&
              v6 == 0x01 && v7 == 0x02) h
        · simp only [if_neg hbt] at h ⊢
          by_cases htf : (inT && bytes.getD (offset + 1) 0 == 0x21) = true
          · rw [if_pos htf] at h
            exact absurd h (by simp)
          · simp only [Bool.not_eq_true] at htf
            simp only [htf, Bool.false_eq_true, if_false, ite_false] at h ⊢
            exact ih (offset + bytes.getD offset 0) inT h
    · rw [transferSizeLoop, if_neg hoff]
      left; rfl

/-- Twin walk of `transferSizeLoop` recording whether every DataView field read
the walker performs stays inside the buffer: `false` exactly when the walker
meets a record whose field reads run past the end of the stream (a truncated
record), which is where the source would throw a RangeError. -/
def walkInBounds (bytes : List Nat) (intfNumber altSetting : Nat) :
    Nat → Nat → Bool → Bool
  | fuel, offset, inTargetIntf =>
    if offset + 2 ≤ bytes.length then
      match fuel with
      | 0 => true
      | fuel + 1 =>
        let bLength := bytes.getD offset 0
        let bType := bytes.getD (offset + 1) 0
        if bLength < 2 then true
        else if bType = 4 then
          match getU8 bytes (offset + 2), getU8 bytes (offset + 3), getU8 bytes (offset + 5),
              getU8 bytes (offset + 6), getU8 bytes (offset + 7) with
          | Except.ok intfNum, Except.ok alt, Except.ok cls, Except.ok subcls,
            Except.ok proto =>
              walkInBounds bytes intfNumber altSetting fuel (offset + bLength)
                (intfNum == intfNumber && alt == altSetting && cls == 0xfe &&
                  subcls == 0x01 && proto == 0x02)
          | _, _, _, _, _ => false
        else if inTargetIntf && bType == 0x21 then
          match getU8 bytes (offset + 5), getU8 bytes (offset + 6) with
          | Except.ok _, Except.ok _ => true
          | _, _ => false
        else walkInBounds bytes intfNumber altSetting fuel (offset + bLength) inTargetIntf
    else true

/-- Every field read of the full `getTransferSize` walk is in bounds (the
stream is not truncated inside any record the walker inspects). -/
def walkReadsInBounds (bytes : List Nat) (intfNumber altSetting : Nat) : Bool :=
  walkInBounds bytes intfNumber altSetting (bytes.length + 1) 9 false

theorem transferSizeLoop_inBounds_default (bytes : List Nat)
    (intfNumber altSetting : Nat) :
    ∀ (fuel offset : Nat) (inT : Bool),
      noTargetFunc bytes intfNumber altSetting fuel offset inT = true →
      walkInBounds bytes intfNumber altSetting fuel offset inT = true →
      transferSizeLoop bytes intfNumber altSetting fuel offset inT =
          some (Except.ok 2048) ∨
      transferSizeLoop bytes intfNumber altSetting fuel offset inT = none := by
  intro fuel
  induction fuel with
  | zero =>
    intro offset inT h hw
    by_cases hoff : offset + 2 ≤ bytes.length
    · rw [transferSizeLoop, if_pos hoff]
      right; rfl
    · rw [transferSizeLoop, if_neg hoff]
      left; rfl
  | succ fuel ih =>
    intro offset inT h hw
    by_cases hoff : offset + 2 ≤ bytes.length
    · rw [transferSizeLoop, if_pos hoff]
      rw [noTargetFunc, if_pos hoff] at h
      rw [walkInBounds, if_pos hoff] at hw
      by_cases hbl : bytes.getD offset 0 < 2
      · simp only [if_pos hbl]
        left
        trivial
      · simp only [if_neg hbl] at h hw ⊢
        by_cases hbt : bytes.getD (offset + 1) 0 = 4
        · simp only [if_pos hbt] at h hw ⊢
          rcases h2 : getU8 bytes (offset + 2) with e2 | v2 <;>
            rcases h3 : getU8 bytes (offset + 3) with e3 | v3 <;>
            rcases h5 : getU8 bytes (offset + 5) with e5 | v5 <;>
            rcases h6 : getU8 bytes (offset + 6) with e6 | v6 <;>
            rcases h7 : getU8 bytes (offset + 7) with e7 | v7
          all_goals rw [h2, h3, h5, h6, h7] at h hw
          all_goals try (exact absurd hw Bool.false_ne_true)
          exact ih (offset + bytes.getD offset 0)
            (v2 == intfNumber && v3 == altSetting && v5 == 0xfe &&
              v6 == 0x01 && v7 == 0x02) h hw
        · simp only [if_neg hbt] at h hw ⊢
          by_cases htf : (inT && bytes.getD (offset + 1) 0 == 0x21) = true
          · rw [if_pos htf] at h
            exact absurd h (by simp)
          · simp only [Bool.not_eq_true] at htf
            simp only [htf, Bool.false_eq_true, if_false, ite_false] at h hw ⊢
            exact ih (offset + bytes.getD offset 0) inT h hw
    · rw [transferSizeLoop, if_neg hoff]
      left; rfl

theorem transferSizeLoop_rangeError_oob (bytes : List Nat)
    (intfNumber altSetting : Nat) :
    ∀ (fuel offset : Nat) (inT : Bool),
      transferSizeLoop bytes intfNumber altSetting fuel offset inT =
        some (Except.error "RangeError") →
      walkInBounds bytes intfNumber altSetting fuel offset inT = false := by
  intro fuel
  induction fuel with
  | zero =>
    intro offset inT h
    by_cases hoff : offset + 2 ≤ bytes.length
    · rw [transferSizeLoop, if_pos hoff] at h
      exact absurd h (by simp)
    · rw [transferSizeLoop, if_neg hoff] at h
      exact absurd h (by simp)
  | succ fuel ih =>
    intro offset inT h
    by_cases hoff : offset + 2 ≤ bytes.length
    · rw [transferSizeLoop, if_pos hoff] at h
      rw [walkInBounds, if_pos hoff]
      by_cases hbl : bytes.getD offset 0 < 2
      · simp only [if_pos hbl] at h
        exact absurd h (by simp)
      · simp only [if_neg hbl] at h ⊢
        by_cases hbt : bytes.getD (offset + 1) 0 = 4
        · simp only [if_pos hbt] at h ⊢
          rcases h2 : getU8 bytes (offset + 2) with e2 | v2 <;>
            rcases h3 : getU8 bytes (offset + 3) with e3 | v3 <;>
            rcases h5 : getU8 bytes (offset + 5) with e5 | v5 <;>
            rcases h6 : getU8 bytes (offset + 6) with e6 | v6 <;>
            rcases h7 : getU8 bytes (offset + 7) with e7 | v7
          all_goals try rfl
          rw [h2, h3, h5, h6, h7] at h
          exact ih (offset + bytes.getD offset 0)
            (v2 == intfNumber && v3 == altSetting && v5 == 0xfe &&
              v6 == 0x01 && v7 == 0x02) h
        · simp only [if_neg hbt] at h ⊢
          by_cases htf : (inT && bytes.getD (offset + 1) 0 == 0x21) = true
          · rw [if_pos htf] at h
            rw [if_pos htf]
            rcases h5 : getU8 bytes (offset + 5) with e5 | v5 <;>
              rcases h6 : getU8 bytes (offset + 6) with e6 | v6
            all_goals rw [h5, h6] at h
            exact absurd h (by simp)
          · simp only [Bool.not_eq_true] at htf
            simp only [htf, Bool.false_eq_true, if_false, ite_false] at h ⊢
            exact ih (offset + bytes.getD offset 0) inT h
    · rw [transferSizeLoop, if_neg hoff] at h
      exact absurd h (by simp)

/-- C5 (amended): for every stream in which the walker never meets a DFU
functional descriptor (type 0x21) inside the matched target interface,
`getTransferSize` returns the fixed default 2048 and never throws whenever the
stream is not truncated inside a record the walker inspects (first conjunct);
even on truncated data nothing but 2048 or the RangeError of the out-of-bounds
DataView read can come out (second conjunct); and a RangeError outcome arises
only from such a truncated record (third conjunct).  The two device reads are
assumed to complete with status ok. -/
theorem c5_descriptor_default_amended :
    (∀ (bytes : List Nat) (intfNumber altSetting : Nat),
      hasNoTargetFunc bytes intfNumber altSetting = true →
      walkReadsInBounds bytes intfNumber altSetting = true →
      getTransferSize bytes intfNumber altSetting = some (Except.ok 2048)) ∧
    (∀ (bytes : List Nat) (intfNumber altSetting : Nat),
      hasNoTargetFunc bytes intfNumber altSetting = true →
      getTransferSize bytes intfNumber altSetting = some (Except.ok 2048) ∨
      getTransferSize bytes intfNumber altSetting = some (Except.error "RangeError")) ∧
    (∀ (bytes : List Nat) (intfNumber altSetting : Nat),
      getTransferSize bytes intfNumber altSetting = some (Except.error "RangeError") →
      walkReadsInBounds bytes intfNumber altSetting = false) := by
  refine ⟨?_, ?_, ?_⟩
  · intro bytes intfNumber altSetting h hw
    have hd := transferSizeLoop_inBounds_default bytes intfNumber altSetting
      (bytes.length + 1) 9 false h hw
    rcases hd with h1 | h2
    · exact h1
    · exact absurd h2 (transferSizeLoop_total bytes intfNumber altSetting
        (bytes.length + 1) 9 false (by omega))
  · intro bytes intfNumber altSetting h
    have hc := transferSizeLoop_cases bytes intfNumber altSetting
      (bytes.length + 1) 9 false h
    have ht := transferSizeLoop_total bytes intfNumber altSetting
      (bytes.length + 1) 9 false (by omega)
    rcases hc with h1 | h2 | h3
    · exact Or.inl h1
    · exact Or.inr h2
    · exact absurd h3 ht
  · intro bytes intfNumber altSetting h
    exact transferSizeLoop_rangeError_oob bytes intfNumber altSetting
      (bytes.length + 1) 9 false h

/-- Counterexample to C5 as stated: a configuration descriptor stream that ends
with a truncated interface record (bLength 2, bType 4 at the very end) contains
no functional descriptor inside the matched target interface, yet
`getTransferSize` throws a RangeError instead of returning the 2048 default,
because the field reads at offset+2.. run past the end of the buffer. -/
theorem c5_truncated_descriptor_counterexample :
    hasNoTargetFunc (List.replicate 9 0 ++ [2, 4]) 0 0 = true ∧
    getTransferSize (List.replicate 9 0 ++ [2, 4]) 0 0 =
      some (Except.error "RangeError") := by
  exact ⟨rfl, rfl⟩

/-- Witness for C5 (amended) at concrete inputs: a well-formed stream holding
one matching interface descriptor (class 0xFE, subclass 1, protocol 2) and no
functional descriptor returns exactly 2048 and does not throw, and the
truncated stream of the counterexample is indeed detected as read out of
bounds. -/
theorem c5_descriptor_default_amended_witness :
    getTransferSize (List.replicate 9 0 ++ [9, 4, 0, 0, 0, 0xfe, 1, 2, 0]) 0 0 =
        some (Except.ok 2048) ∧
    walkReadsInBounds (List.replicate 9 0 ++ [2, 4]) 0 0 = false :=
  ⟨c5_descriptor_default_amended.1 (List.replicate 9 0 ++ [9, 4, 0, 0, 0, 0xfe, 1, 2, 0])
      0 0 (by rfl) (by rfl),
   c5_descriptor_default_amended.2.2 (List.replicate 9 0 ++ [2, 4]) 0 0 (by rfl)⟩

/-- High-level device operations the `flash` callback performs, in order. -/
inductive FlashAction
  | eraseAct (addr : Nat)
  | setAddrAct (addr : Nat)
  | downloadAct (name : String)
  | pauseAct (ms : Nat)
  | getStateAct
  | detachAct
deriving Repr, DecidableEq

/-- Outcomes of the awaited steps of one flashing run (each `withTimeout`-
wrapped device call either resolves or rejects; a timeout surfaces as an error
outcome).  The two downloads go through `flashWithRetry`, whose Bool result is
modelled by `Except String Bool`. -/
structure FlashOutcomes where
  erasePanda1 : Except String Unit
  erasePanda2 : Except String Unit
  erasePanda3 : Except String Unit
  setAddrPanda : Except String Unit
  pandaWrite : Except String Bool
  stateProbe : Except String Nat
  eraseBootstub : Except String Unit
  setAddrBootstub : Except String Unit
  bootstubWrite : Except String Bool
  detachTry : Except String Unit

/-- Phase 2 of `flash`, entered after the 1000 ms pause and the state probe
(whose result is swallowed by a try/catch): erase the bootstub page, set
address 0x08000000, stream bootstub.panda.bin, then attempt the best-effort
DETACH request, ignoring its failure. -/
def flashPhase2 (o : FlashOutcomes) (t : List FlashAction) :
    List FlashAction × Except String Unit :=
  let t8 := t ++ [FlashAction.eraseAct 0x08000000]
  match o.eraseBootstub with
  | Except.error e => (t8, Except.error e)
  | Except.ok _ =>
  let t9 := t8 ++ [FlashAction.setAddrAct 0x08000000]
  match o.setAddrBootstub with
  | Except.error e => (t9, Except.error e)
  | Except.ok _ =>
  let t10 := t9 ++ [FlashAction.downloadAct "bootstub.panda.bin"]
  match o.bootstubWrite with
  | Except.error e => (t10, Except.error e)
  | Except.ok bootstubSuccess =>
  if !bootstubSuccess then (t10, Except.error "Failed to write bootstub.panda.bin")
  else
  let t11 := t10 ++ [FlashAction.detachAct]
  match o.detachTry with
  | Except.error _ => (t11, Except.ok ())
  | Except.ok _ => (t11, Except.ok ())

/-- The `flash` callback (part_001 lines 1806-1869), abstracted over the step
outcomes: erase the three panda pages, set address 0x08004000, stream panda.bin
through the retry orchestrator; pause 1000 ms, probe the state (result
ignored), then phase 2.  The trace lists the operations performed before the
run ended; any step error aborts the remaining steps. -/
def flash (o : FlashOutcomes) : List FlashAction × Except String Unit :=
  let t1 := [FlashAction.eraseAct 0x08004000]
  match o.erasePanda1 with
  | Except.error e => (t1, Except.error e)
  | Except.ok _ =>
  let t2 := t1 ++ [FlashAction.eraseAct 0x08008000]
  match o.erasePanda2 with
  | Except.error e => (t2, Except.error e)
  | Except.ok _ =>
  let t3 := t2 ++ [FlashAction.eraseAct 0x0800c000]
  match o.erasePanda3 with
  | Except.error e => (t3, Except.error e)
  | Except.ok _ =>
  let t4 := t3 ++ [FlashAction.setAddrAct 0x08004000]
  match o.setAddrPanda with
  | Except.error e => (t4, Except.error e)
  | Except.ok _ =>
  let t5 := t4 ++ [FlashAction.downloadAct "panda.bin"]
  match o.pandaWrite with
  | Except.error e => (t5, Except.error e)
  | Except.ok pandaSuccess =>
  if !pandaSuccess then (t5, Except.error "Failed to write panda.bin")
  else
  let t6 := t5 ++ [FlashAction.pauseAct 1000]
  let t7 := t6 ++ [FlashAction.getStateAct]
  match o.stateProbe with
  | Except.error _ => flashPhase2 o t7
  | Except.ok _ => flashPhase2 o t7

/-- C8: when every mandatory step succeeds, a flashing run performs, in this
fixed order: erase of pages 0x08004000, 0x08008000, 0x0800c000; set-address
0x08004000; download of panda.bin via the retry orchestrator; a short pause
(and a state probe whose outcome is ignored); erase of page 0x08000000;
set-address 0x08000000; download of bootstub.panda.bin via the retry
orchestrator; and a best-effort DETACH whose failure is ignored — the state
probe and DETACH outcomes are unconstrained. -/
theorem c8_flash_sequence (o : FlashOutcomes)
    (h1 : o.erasePanda1 = Except.ok ()) (h2 : o.erasePanda2 = Except.ok ())
    (h3 : o.erasePanda3 = Except.ok ()) (h4 : o.setAddrPanda = Except.ok ())
    (h5 : o.pandaWrite = Except.ok true) (h6 : o.eraseBootstub = Except.ok ())
    (h7 : o.setAddrBootstub = Except.ok ()) (h8 : o.bootstubWrite = Except.ok true) :
    flash o =
      ([FlashAction.eraseAct 0x08004000, FlashAction.eraseAct 0x08008000,
        FlashAction.eraseAct 0x0800c000, FlashAction.setAddrAct 0x08004000,
        FlashAction.downloadAct "panda.bin", FlashAction.pauseAct 1000,
        FlashAction.getStateAct, FlashAction.eraseAct 0x08000000,
        FlashAction.setAddrAct 0x08000000, FlashAction.downloadAct "bootstub.panda.bin",
        FlashAction.detachAct], Except.ok ()) := by
  rw [flash, h1, h2, h3, h4, h5]
  cases hp : o.stateProbe with
  | error e =>
    simp only []
    rw [flashPhase2, h6, h7, h8]
    cases hd : o.detachTry <;> rfl
  | ok v =>
    simp only []
    rw [flashPhase2, h6, h7, h8]
    cases hd : o.detachTry <;> rfl

/-- Witness for C8 at a concrete outcome record, with the state probe and the
DETACH attempt both failing (both are ignored). -/
theorem c8_flash_sequence_witness :
    flash ⟨Except.ok (), Except.ok (), Except.ok (), Except.ok (), Except.ok true,
        Except.error "disconnected", Except.ok (), Except.ok (), Except.ok true,
        Except.error "device unavailable"⟩ =
      ([FlashAction.eraseAct 0x08004000, FlashAction.eraseAct 0x08008000,
        FlashAction.eraseAct 0x0800c000, FlashAction.setAddrAct 0x08004000,
        FlashAction.downloadAct "panda.bin", FlashAction.pauseAct 1000,
        FlashAction.getStateAct, FlashAction.eraseAct 0x08000000,
        FlashAction.setAddrAct 0x08000000, FlashAction.downloadAct "bootstub.panda.bin",
        FlashAction.detachAct], Except.ok ()) :=
  c8_flash_sequence _ rfl rfl rfl rfl rfl rfl rfl rfl
